import Mathlib

/-!
Verification of the Agent-Connect peer protocol engine.

This file gives a shallow embedding, in Lean 4, of the parts of the
repository that the verified claims are about:

* `lib/crypto.js` — AES-256-GCM message encryption/decryption.  The AEAD
  primitives themselves (SHA-256, the GCM keystream, the GCM
  authentication tag, UTF-8 text codecs) are platform primitives of
  Node's `crypto` module, not code of this repository; they are
  abstracted as a `CryptoPrim` structure carrying only their shape laws
  (output lengths, byte ranges, UTF-8 round trip).  GCM encryption is a
  keystream XOR, and GCM decryption authenticates by recomputing the tag
  and fails exactly on tag mismatch, which is how `decipher.final()`
  throws in Node; the `try/catch` of `decryptMessage` is modelled by the
  `Option` result.  The fresh `crypto.randomBytes(12)` nonce is passed
  as an explicit argument.  Buffer packing, `Buffer.subarray` (including
  its negative-index clamping) and base64 are modelled concretely.
* `lib/auth.js` — bearer-token verification and the fixed-window rate
  limiter, with `Date.now()` passed explicitly and the module-level
  `rateLimits` object as explicit state.
* `lib/config.js` — friend records and `getRecentExchangeCount`, with
  timestamps modelled as epoch milliseconds (`Int`).
* `scripts/server.js` — `authenticateFriend` and the `/message` handler
  `handleMessage`, over an association-list model of the on-disk friend
  store (`loadFriend`/`saveFriend`).  Filesystem/Telegram/exec side
  effects that never touch friend records or the HTTP response are
  dropped; the JSON rendering of a received file is abstracted as a
  `fileRender` parameter.
* `scripts/remove-friend.js` and `scripts/watchdog.js` — the remove
  operation and the crash-restart backoff schedule.
-/

/-! ## JavaScript string/collection helpers -/

/-- Association-list lookup, modelling the key/value friend store and the
in-memory rate-limit objects (`rateLimits[name]`). -/
def lookupStore {α : Type} (m : List (String × α)) (k : String) : Option α :=
  (m.find? (fun kv => kv.1 == k)).map (fun kv => kv.2)

/-- Association-list update, modelling `obj[k] = v`. -/
def upsertStore {α : Type} (m : List (String × α)) (k : String) (v : α) :
    List (String × α) :=
  (k, v) :: m.filter (fun kv => kv.1 != k)

/-- Association-list removal, modelling `delete obj[k]` / `fs.unlinkSync`. -/
def eraseStore {α : Type} (m : List (String × α)) (k : String) :
    List (String × α) :=
  m.filter (fun kv => kv.1 != k)

/-- Tail of `String.prototype.split(sep)` for a one-character separator:
groups accumulated left to right, empty groups kept. -/
def splitCharsAux (sep : Char) (cur : List Char) : List Char → List (List Char)
  | [] => [cur.reverse]
  | c :: rest =>
    if c = sep then cur.reverse :: splitCharsAux sep [] rest
    else splitCharsAux sep (c :: cur) rest

/-- JavaScript `s.split(sep)` for a one-character separator. -/
def jsSplit (sep : Char) (s : String) : List String :=
  (splitCharsAux sep [] s.data).map String.mk

/-- JavaScript `Buffer.byteLength(s, 'utf8')` / the length of
`Buffer.from(s, 'utf8')`. -/
def jsByteLength (s : String) : Nat :=
  (s.data.map Char.utf8Size).sum

/-- JavaScript falsiness of an optional string field (`!x` is true for a
missing field and for the empty string). -/
def optFalsy (o : Option String) : Bool :=
  match o with
  | none => true
  | some s => s = ""

/-! ## Base64 (Node `Buffer.prototype.toString('base64')` /
`Buffer.from(s, 'base64')`) -/

/-- The base64 alphabet. -/
def b64Alphabet : List Char :=
  "ABCDEFGHIJKLMNOPQRSTUVWXYZabcdefghijklmnopqrstuvwxyz0123456789+/".data

/-- Character for a sextet. -/
def b64Char (n : Nat) : Char := b64Alphabet.getD n 'A'

/-- Sextet for a character (64 for a character outside the alphabet). -/
def b64Index (c : Char) : Nat := b64Alphabet.indexOf c

/-- Whether a character belongs to the base64 alphabet (Node's decoder
skips padding and anything else outside the alphabet). -/
def isB64Char (c : Char) : Bool := b64Alphabet.contains c

/-- Bytes to sextets, three bytes to four sextets, final partial group
encoded high-to-low. -/
def sextetsOfBytes : List Nat → List Nat
  | [] => []
  | [a] => [a / 4, a % 4 * 16]
  | [a, b] => [a / 4, a % 4 * 16 + b / 16, b % 16 * 4]
  | a :: b :: c :: rest =>
    a / 4 :: (a % 4 * 16 + b / 16) :: (b % 16 * 4 + c / 64) :: c % 64 ::
      sextetsOfBytes rest

/-- Sextets to bytes, inverse direction of `sextetsOfBytes`; a trailing
group of two or three sextets yields one or two bytes. -/
def bytesOfSextets : List Nat → List Nat
  | s1 :: s2 :: s3 :: s4 :: rest =>
    (s1 * 4 + s2 / 16) :: (s2 % 16 * 16 + s3 / 4) :: (s3 % 4 * 64 + s4) ::
      bytesOfSextets rest
  | [s1, s2] => [s1 * 4 + s2 / 16]
  | [s1, s2, s3] => [s1 * 4 + s2 / 16, s2 % 16 * 16 + s3 / 4]
  | _ => []

/-- Padding characters appended by Node's base64 encoder. -/
def b64PadChars (byteLen : Nat) : List Char :=
  if byteLen % 3 = 1 then ['=', '=']
  else if byteLen % 3 = 2 then ['=']
  else []

/-- Source `Buffer.prototype.toString('base64')`. -/
def base64Encode (bytes : List Nat) : String :=
  String.mk ((sextetsOfBytes bytes).map b64Char ++ b64PadChars bytes.length)

/-- Source `Buffer.from(s, 'base64')`: ignore non-alphabet characters (padding
included), then regroup sextets into bytes. -/
def base64Decode (s : String) : List Nat :=
  bytesOfSextets ((s.data.filter isB64Char).map b64Index)

/-! ## Crypto layer (`lib/crypto.js`) -/

/-- Source `IV_LENGTH` (GCM recommended IV size). -/
def IV_LENGTH : Nat := 12

/-- Source `TAG_LENGTH` (GCM auth tag length). -/
def TAG_LENGTH : Nat := 16

/-- The cryptographic primitives `lib/crypto.js` gets from Node's
`crypto` module, abstracted with their shape laws.  `keystream` is the
AES-256-CTR keystream GCM encrypts with (ciphertext = plaintext XOR
keystream) and `authTag` the GHASH-derived authentication tag;
`decipher.final()` succeeds exactly when the received tag equals the
recomputed one.  `utf8Encode`/`utf8Decode` model
`Buffer.from(s, 'utf8')` and `buf.toString('utf8')`. -/
structure CryptoPrim where
  sha256 : String → List Nat
  keystream : List Nat → List Nat → Nat → List Nat
  authTag : List Nat → List Nat → List Nat → List Nat
  utf8Encode : String → List Nat
  utf8Decode : List Nat → String
  keystream_length : ∀ key iv n, (keystream key iv n).length = n
  keystream_byte : ∀ key iv n, ∀ b ∈ keystream key iv n, b < 256
  authTag_length : ∀ key iv ct, (authTag key iv ct).length = TAG_LENGTH
  authTag_byte : ∀ key iv ct, ∀ b ∈ authTag key iv ct, b < 256
  utf8Encode_byte : ∀ s, ∀ b ∈ utf8Encode s, b < 256
  utf8_round : ∀ s, utf8Decode (utf8Encode s) = s

/-- Source `deriveKey(token)`: SHA-256 of the shared friend token. -/
def deriveKey (P : CryptoPrim) (token : String) : List Nat :=
  P.sha256 token

/-- Source `encryptMessage(plaintext, token)`.  The fresh 12-byte nonce drawn by
`crypto.randomBytes(IV_LENGTH)` is the explicit argument `iv`.  Output is
`base64(iv ++ ciphertext ++ tag)`. -/
def encryptMessage (P : CryptoPrim) (plaintext token : String)
    (iv : List Nat) : String :=
  let key := deriveKey P token
  let pt := P.utf8Encode plaintext
  let encrypted := List.zipWith Nat.xor pt (P.keystream key iv pt.length)
  let tag := P.authTag key iv encrypted
  base64Encode (iv ++ encrypted ++ tag)

/-- Start index of the tag slice `packed.subarray(packed.length - 16)`:
JavaScript resolves a negative start as `length + start`, clamped to 0. -/
def tagStart (n : Nat) : Nat :=
  if n < TAG_LENGTH then 2 * n - TAG_LENGTH else n - TAG_LENGTH

/-- Source `packed.subarray(0, IV_LENGTH)`. -/
def unpackIv (packed : List Nat) : List Nat := packed.take IV_LENGTH

/-- Source `packed.subarray(packed.length - TAG_LENGTH)`. -/
def unpackTag (packed : List Nat) : List Nat :=
  packed.drop (tagStart packed.length)

/-- Source `packed.subarray(IV_LENGTH, packed.length - TAG_LENGTH)` (negative
end index resolved and clamped as JavaScript does). -/
def unpackCiphertext (packed : List Nat) : List Nat :=
  (packed.take (tagStart packed.length)).drop IV_LENGTH

/-- Source `decryptMessage(encryptedBase64, token)`: unpack
`base64Decode encryptedBase64` into nonce, ciphertext and tag, recompute
the tag, decrypt on a match; every failure path of the original
`try/catch` (tag mismatch, malformed input, wrong key) is the `none`
result. -/
def decryptMessage (P : CryptoPrim) (encryptedBase64 token : String) :
    Option String :=
  if P.authTag (deriveKey P token) (unpackIv (base64Decode encryptedBase64))
      (unpackCiphertext (base64Decode encryptedBase64)) =
      unpackTag (base64Decode encryptedBase64) then
    some (P.utf8Decode (List.zipWith Nat.xor
      (unpackCiphertext (base64Decode encryptedBase64))
      (P.keystream (deriveKey P token) (unpackIv (base64Decode encryptedBase64))
        (unpackCiphertext (base64Decode encryptedBase64)).length)))
  else none

/-! ### A concrete primitive instance (for witnesses) -/

/-- Four-byte little-endian-by-blocks character codec used by the toy
primitive instance. -/
def toyEncodeChars : List Char → List Nat
  | [] => []
  | c :: rest =>
    c.toNat % 256 :: c.toNat / 256 % 256 :: c.toNat / 65536 % 256 ::
      c.toNat / 16777216 :: toyEncodeChars rest

/-- Inverse of `toyEncodeChars`. -/
def toyDecodeChars : List Nat → List Char
  | a :: b :: c :: d :: rest =>
    Char.ofNat (a + 256 * b + 65536 * c + 16777216 * d) :: toyDecodeChars rest
  | _ => []

/-- A concrete, fully computable `CryptoPrim` instance used to evaluate
the crypto theorems on explicit inputs. -/
def toyPrim : CryptoPrim where
  sha256 t := [t.length % 256]
  keystream _ _ n := List.replicate n 7
  authTag key _ ct := List.replicate TAG_LENGTH ((key.headD 0 + ct.length) % 256)
  utf8Encode s := toyEncodeChars s.data
  utf8Decode l := String.mk (toyDecodeChars l)
  keystream_length := by intro key iv n; exact List.length_replicate n 7
  keystream_byte := by
    intro key iv n b hb
    have := List.eq_of_mem_replicate hb
    omega
  authTag_length := by intro key iv ct; exact List.length_replicate _ _
  authTag_byte := by
    intro key iv ct b hb
    have := List.eq_of_mem_replicate hb
    omega
  utf8Encode_byte := by
    intro s
    have h : ∀ cs : List Char, ∀ b ∈ toyEncodeChars cs, b < 256 := by
      intro cs
      induction cs with
      | nil => intro b hb; simp [toyEncodeChars] at hb
      | cons c rest ih =>
        intro b hb
        have hc : c.toNat < 4294967296 := c.val.toNat_lt
        simp only [toyEncodeChars, List.mem_cons] at hb
        rcases hb with h | h | h | h | h
        · omega
        · omega
        · omega
        · omega
        · exact ih b h
    exact h s.data
  utf8_round := by
    intro s
    have h : ∀ cs : List Char, toyDecodeChars (toyEncodeChars cs) = cs := by
      intro cs
      induction cs with
      | nil => rfl
      | cons c rest ih =>
        have hc : c.toNat < 4294967296 := c.val.toNat_lt
        simp only [toyEncodeChars, toyDecodeChars, ih, List.cons.injEq, and_true]
        have harith : c.toNat % 256 + 256 * (c.toNat / 256 % 256) +
            65536 * (c.toNat / 65536 % 256) + 16777216 * (c.toNat / 16777216) =
            c.toNat := by omega
        rw [harith, Char.ofNat_toNat]
    show String.mk (toyDecodeChars (toyEncodeChars s.data)) = s
    rw [h]

/-! ## Auth and rate limiting (`lib/auth.js`) -/

/-- Result of `verifyBearerToken`: `{ valid: boolean, error?: string }`. -/
structure AuthCheck where
  valid : Bool
  error : Option String := none
deriving DecidableEq, Repr

/-- Source `verifyBearerToken(authHeader, expectedToken)`.  `timingSafeEqual` on
the two UTF-8 buffers (guarded by the byte-length comparison) holds
exactly when the strings are equal. -/
def verifyBearerToken (authHeader : Option String) (expectedToken : String) :
    AuthCheck :=
  match authHeader with
  | none => { valid := false, error := some "Missing Authorization header" }
  | some h =>
    if h = "" then
      { valid := false, error := some "Missing Authorization header" }
    else
      let parts := jsSplit ' ' h
      if parts.length ≠ 2 ∨ parts.headD "" ≠ "Bearer" then
        { valid := false,
          error := some "Invalid Authorization format. Expected: Bearer <token>" }
      else
        let token := parts.getD 1 ""
        if token = "" ∨ token.length < 20 then
          { valid := false, error := some "Token too short" }
        else if jsByteLength expectedToken ≠ jsByteLength token then
          { valid := false, error := some "Invalid token" }
        else if token ≠ expectedToken then
          { valid := false, error := some "Invalid token" }
        else
          { valid := true }

/-- Source `RATE_LIMIT_WINDOW_MS` (one minute). -/
def RATE_LIMIT_WINDOW_MS : Int := 60 * 1000

/-- Source `RATE_LIMIT_MAX` (max requests per window). -/
def RATE_LIMIT_MAX : Nat := 10

/-- One entry of the in-memory store `rateLimits[friendName]`. -/
structure RateEntry where
  count : Nat
  windowStart : Int
deriving DecidableEq, Repr

/-- The module-level `rateLimits` object, made explicit. -/
abbrev RateState : Type := List (String × RateEntry)

/-- Result of `checkRateLimit`: `{ allowed: boolean, remaining: number }`. -/
structure RateResult where
  allowed : Bool
  remaining : Nat
deriving DecidableEq, Repr

/-- Source `checkRateLimit(friendName)` with `Date.now()` and the `rateLimits`
store passed explicitly; returns the result and the updated store. -/
def checkRateLimit (rateLimits : RateState) (friendName : String)
    (now : Int) : RateResult × RateState :=
  match lookupStore rateLimits friendName with
  | none =>
    ({ allowed := true, remaining := RATE_LIMIT_MAX - 1 },
      upsertStore rateLimits friendName { count := 1, windowStart := now })
  | some entry =>
    if now - entry.windowStart > RATE_LIMIT_WINDOW_MS then
      ({ allowed := true, remaining := RATE_LIMIT_MAX - 1 },
        upsertStore rateLimits friendName { count := 1, windowStart := now })
    else if entry.count ≥ RATE_LIMIT_MAX then
      ({ allowed := false, remaining := 0 }, rateLimits)
    else
      ({ allowed := true, remaining := RATE_LIMIT_MAX - (entry.count + 1) },
        upsertStore rateLimits friendName
          { count := entry.count + 1, windowStart := entry.windowStart })

/-- A sequence of `checkRateLimit` calls for one subject at the given
arrival times, returning each call's `allowed` flag and the final store. -/
def rateCalls (friendName : String) (times : List Int) (rs : RateState) :
    List Bool × RateState :=
  match times with
  | [] => ([], rs)
  | t :: rest =>
    let r := checkRateLimit rs friendName t
    let tail := rateCalls friendName rest r.2
    (r.1.allowed :: tail.1, tail.2)

/-! ## Friend records and cooldown accounting (`lib/config.js`) -/

/-- One entry of `conversation_history`.  Timestamps are modelled as
epoch milliseconds, i.e. the value of `new Date(iso).getTime()`. -/
structure HistEntry where
  fromName : String
  message : String
  timestamp : Int
  direction : String
deriving DecidableEq, Repr

/-- A friend record `friends/<name>.json`. -/
structure Friend where
  name : String
  webhook_url : String
  token : String
  status : String
  paired_at : Option Int := none
  last_heartbeat : Option Int := none
  last_message_at : Option Int := none
  conversation_history : List HistEntry := []
deriving DecidableEq, Repr

/-- The friends directory, modelled as the key-value store the spec
requires (`load`/`save`/`delete` on opaque records). -/
abbrev Store : Type := List (String × Friend)

/-- Source `loadFriend(name)`. -/
def loadFriend (store : Store) (name : String) : Option Friend :=
  lookupStore store name

/-- Source `saveFriend(name, data)`. -/
def saveFriend (store : Store) (name : String) (data : Friend) : Store :=
  upsertStore store name data

/-- Source `deleteFriend(name)`. -/
def deleteFriend (store : Store) (name : String) : Store :=
  eraseStore store name

/-- Source `getRecentExchangeCount(friendName, windowMinutes)`: number of
history entries (either direction) newer than
`Date.now() - windowMinutes * 60 * 1000`; 0 when the friend record is
missing.  The loaded record and the clock are explicit arguments. -/
def getRecentExchangeCount (friend? : Option Friend) (windowMinutes : Int)
    (now : Int) : Nat :=
  match friend? with
  | none => 0
  | some friend =>
    (friend.conversation_history.filter
      (fun m => m.timestamp > now - windowMinutes * 60 * 1000)).length

/-- The cooldown gate computed by `handleMessage`:
`recentExchanges >= config.maxExchangesPerConvo`. -/
def overCooldown (friend? : Option Friend) (cooldownMinutes : Int)
    (maxExchangesPerConvo : Nat) (now : Int) : Bool :=
  getRecentExchangeCount friend? cooldownMinutes now ≥ maxExchangesPerConvo

/-! ## The `/message` handler (`scripts/server.js`) -/

/-- The parsed JSON body of a `/message` request.  `timestamp`, when
present, is kept in its epoch-milliseconds reading. -/
structure MsgBody where
  fromName : Option String := none
  message : Option String := none
  encrypted : Bool := false
  message_type : Option String := none
  timestamp : Option Int := none
deriving DecidableEq, Repr

/-- A JSON response together with its HTTP status code; the optional
fields are the ones the `/message` handler ever sets. -/
structure JsonResp where
  status : Nat
  error : Option String := none
  statusField : Option String := none
  messageField : Option String := none
  remaining : Option Nat := none
  retryAfterMs : Option Int := none
deriving DecidableEq, Repr

/-- Result of `authenticateFriend`: `{ error }` or `{ friend }`. -/
inductive AuthResult where
  | failed (error : String)
  | ok (friend : Friend)
deriving DecidableEq, Repr

/-- Source `authenticateFriend(req, body)`: resolve `body.from`, require a
known friend whose status is `paired` or `pending`, then verify the
bearer token against the friend's stored token. -/
def authenticateFriend (authHeader : Option String) (body : MsgBody)
    (store : Store) : AuthResult :=
  if optFalsy body.fromName then .failed "Missing \"from\" field"
  else
    let friendName := body.fromName.getD ""
    match loadFriend store friendName with
    | none => .failed ("Unknown agent: " ++ friendName)
    | some friend =>
      if friend.status ≠ "paired" ∧ friend.status ≠ "pending" then
        .failed ("Not paired with: " ++ friendName)
      else
        let authResult := verifyBearerToken authHeader friend.token
        if authResult.valid = false then .failed (authResult.error.getD "")
        else .ok friend

/-- The `push` followed by `if (length > 100) slice(-100)` applied to
`conversation_history` by both `handleMessage` and `send-message.js`. -/
def pushHistory (history : List HistEntry) (entry : HistEntry) :
    List HistEntry :=
  let h := history ++ [entry]
  if h.length > 100 then h.drop (h.length - 100) else h

/-- Source `handleMessage(req, res)`, from the parsed body on.  Explicit inputs:
the crypto primitives, a `fileRender` function abstracting the
`JSON.parse`-and-save rendering of a file message (`none` models a parse
failure, which leaves the plaintext unchanged), the `Authorization`
header, the body, the friend store, the rate-limit store, and the clock.
Console/Telegram/memory-file effects and the auto-reply exec, which
touch neither the friend store nor the response, are dropped.  Returns
the response and the updated friend and rate-limit stores. -/
def handleMessage (P : CryptoPrim) (fileRender : String → Option String)
    (authHeader : Option String) (body : MsgBody) (store : Store)
    (rateLimits : RateState) (now : Int) : JsonResp × Store × RateState :=
  match authenticateFriend authHeader body store with
  | .failed e => ({ status := 401, error := some e }, store, rateLimits)
  | .ok friend =>
    let friendName := body.fromName.getD ""
    if optFalsy body.message then
      ({ status := 400, error := some "Missing \"message\" field" },
        store, rateLimits)
    else
      let message := body.message.getD ""
      let rateCheck := checkRateLimit rateLimits friendName now
      if rateCheck.1.allowed = false then
        ({ status := 429, error := some "Rate limit exceeded",
           retryAfterMs := some 60000 }, store, rateCheck.2)
      else
        let decrypted? :=
          if body.encrypted then decryptMessage P message friend.token
          else some message
        match decrypted? with
        | none =>
          ({ status := 400,
             error := some "Decryption failed — message tampered or wrong key" },
            store, rateCheck.2)
        | some plaintext0 =>
          let isFileMessage := body.message_type = some "file"
          let plaintext :=
            if isFileMessage then (fileRender plaintext0).getD plaintext0
            else plaintext0
          let entry : HistEntry :=
            { fromName := friendName, message := plaintext,
              timestamp := body.timestamp.getD now, direction := "incoming" }
          let friend' : Friend :=
            { friend with
              conversation_history :=
                pushHistory friend.conversation_history entry,
              last_message_at := some now }
          let store' := saveFriend store friendName friend'
          ({ status := 200, statusField := some "delivered",
             messageField := some "Message received",
             remaining := some rateCheck.1.remaining }, store', rateCheck.2)

/-! ## Outbound send (`scripts/send-message.js`) -/

/-- The friend-record update `send-message.js` performs once the remote
returned HTTP 200: push an outgoing history entry, trim to the last 100,
stamp `last_message_at`. -/
def recordDelivered (friend : Friend) (agentName message : String)
    (timestamp : Int) : Friend :=
  { friend with
    conversation_history :=
      pushHistory friend.conversation_history
        { fromName := agentName, message := message, timestamp := timestamp,
          direction := "outgoing" },
    last_message_at := some timestamp }

/-! ## Remove friend (`scripts/remove-friend.js`) -/

/-- Source `remove-friend.js` `main()`: usage error on a missing name, error if
no record is found, otherwise delete the record (no status check). -/
def removeFriend (store : Store) (friendName : String) :
    Except String Store :=
  if friendName = "" then .error "Usage: node remove-friend.js <name>"
  else
    match loadFriend store friendName with
    | none => .error ("No friend found: " ++ friendName)
    | some _ => .ok (deleteFriend store friendName)

/-! ## Watchdog (`scripts/watchdog.js`) -/

/-- Source `MIN_RESTART_DELAY` (1 second). -/
def MIN_RESTART_DELAY : Int := 1000

/-- Source `MAX_RESTART_DELAY` (1 minute). -/
def MAX_RESTART_DELAY : Int := 60000

/-- Source `RESET_AFTER_MS` (reset backoff after 5 min of stable running). -/
def RESET_AFTER_MS : Int := 300000

/-- The watchdog's module state `restartDelay`/`restartCount`. -/
structure WatchdogState where
  restartDelay : Int
  restartCount : Nat
deriving DecidableEq, Repr

/-- Initial module state (`restartDelay = MIN_RESTART_DELAY`,
`restartCount = 0`). -/
def watchdogInit : WatchdogState :=
  { restartDelay := MIN_RESTART_DELAY, restartCount := 0 }

/-- The child's `exit` handler: reset the backoff if the child ran longer
than `RESET_AFTER_MS`, bump the count, schedule the restart after the
current `restartDelay` (the returned delay), then double the delay up to
`MAX_RESTART_DELAY`. -/
def onServerExit (s : WatchdogState) (runtimeMs : Int) :
    Int × WatchdogState :=
  let s1 := if runtimeMs > RESET_AFTER_MS then watchdogInit else s
  let scheduledDelay := s1.restartDelay
  (scheduledDelay,
    { restartDelay := min (s1.restartDelay * 2) MAX_RESTART_DELAY,
      restartCount := s1.restartCount + 1 })

/-- Delays scheduled by `n` consecutive exits with the given runtimes. -/
def restartDelays (s : WatchdogState) : List Int → List Int
  | [] => []
  | rt :: rest =>
    let r := onServerExit s rt
    r.1 :: restartDelays r.2 rest

/-! ## Concrete records used to evaluate the theorems -/

/-- A 20-character token (shortest the bearer check accepts). -/
def tokenW : String := "tokentokentokentoken"

/-- A friend record still in the `pending` state. -/
def friendW : Friend :=
  { name := "amy", webhook_url := "http://amy.example", token := tokenW,
    status := "pending" }

/-- A store holding only `friendW`. -/
def storeW : Store := [("amy", friendW)]

/-- Another pending friend, target of the remove counterexample. -/
def pendingW : Friend :=
  { name := "bob", webhook_url := "http://bob.example", token := tokenW,
    status := "pending" }

/-- A store holding only `pendingW`. -/
def storeP : Store := [("bob", pendingW)]

/-- A paired friend with three history entries at epoch-milliseconds
1000000, 1100000 and 1200000. -/
def coolFriendW : Friend :=
  { name := "cal", webhook_url := "http://cal.example", token := tokenW,
    status := "paired",
    conversation_history :=
      [{ fromName := "cal", message := "m1", timestamp := 1000000,
         direction := "incoming" },
       { fromName := "me", message := "m2", timestamp := 1100000,
         direction := "outgoing" },
       { fromName := "cal", message := "m3", timestamp := 1200000,
         direction := "incoming" }] }

/-- A `/message` body with no `from` field. -/
def bodyNoFrom : MsgBody := { fromName := none, message := some "hi" }

/-! ## Base64 lemmas -/

theorem isB64Char_b64Char : ∀ n < 64, isB64Char (b64Char n) = true := by
  decide

theorem b64Index_b64Char : ∀ n < 64, b64Index (b64Char n) = n := by
  decide

theorem sextetsOfBytes_lt : ∀ l : List Nat, (∀ x ∈ l, x < 256) →
    ∀ y ∈ sextetsOfBytes l, y < 64
  | [], _ => by intro y hy; simp [sextetsOfBytes] at hy
  | [a], h => by
    intro y hy
    have ha := h a (by simp)
    simp [sextetsOfBytes] at hy
    omega
  | [a, b], h => by
    intro y hy
    have ha := h a (by simp)
    have hb := h b (by simp)
    simp [sextetsOfBytes] at hy
    omega
  | a :: b :: c :: rest, h => by
    intro y hy
    have ha := h a (by simp)
    have hb := h b (by simp)
    have hc := h c (by simp)
    have hrest : ∀ x ∈ rest, x < 256 := fun x hx => h x (by simp [hx])
    simp only [sextetsOfBytes, List.mem_cons] at hy
    rcases hy with rfl | rfl | rfl | rfl | hy
    · omega
    · omega
    · omega
    · omega
    · exact sextetsOfBytes_lt rest hrest y hy

theorem bytesOfSextets_sextetsOfBytes : ∀ l : List Nat,
    (∀ x ∈ l, x < 256) → bytesOfSextets (sextetsOfBytes l) = l
  | [], _ => rfl
  | [a], h => by
    have ha := h a (by simp)
    show bytesOfSextets [a / 4, a % 4 * 16] = [a]
    simp only [bytesOfSextets, List.cons.injEq, and_true]
    omega
  | [a, b], h => by
    have ha := h a (by simp)
    have hb := h b (by simp)
    show bytesOfSextets [a / 4, a % 4 * 16 + b / 16, b % 16 * 4] = [a, b]
    simp only [bytesOfSextets, List.cons.injEq, and_true]
    constructor <;> omega
  | a :: b :: c :: rest, h => by
    have ha := h a (by simp)
    have hb := h b (by simp)
    have hc := h c (by simp)
    have hrest : ∀ x ∈ rest, x < 256 := fun x hx => h x (by simp [hx])
    show bytesOfSextets (a / 4 :: (a % 4 * 16 + b / 16) ::
        (b % 16 * 4 + c / 64) :: c % 64 :: sextetsOfBytes rest) =
      a :: b :: c :: rest
    simp only [bytesOfSextets, List.cons.injEq]
    refine ⟨by omega, by omega, by omega, ?_⟩
    exact bytesOfSextets_sextetsOfBytes rest hrest

theorem filter_b64_of_lt (s : List Nat) (h : ∀ y ∈ s, y < 64) :
    (s.map b64Char).filter isB64Char = s.map b64Char := by
  induction s with
  | nil => rfl
  | cons a rest ih =>
    have ha := isB64Char_b64Char a (h a (by simp))
    have hrest := ih (fun y hy => h y (by simp [hy]))
    simp [List.filter_cons, ha, hrest]

theorem map_b64Index_of_lt (s : List Nat) (h : ∀ y ∈ s, y < 64) :
    (s.map b64Char).map b64Index = s := by
  induction s with
  | nil => rfl
  | cons a rest ih =>
    have ha := b64Index_b64Char a (h a (by simp))
    have hrest := ih (fun y hy => h y (by simp [hy]))
    simp [ha, hrest]

theorem filter_b64PadChars (n : Nat) :
    (b64PadChars n).filter isB64Char = [] := by
  unfold b64PadChars
  split
  · decide
  · split
    · decide
    · decide

theorem base64_roundtrip (bytes : List Nat) (h : ∀ x ∈ bytes, x < 256) :
    base64Decode (base64Encode bytes) = bytes := by
  have hs := sextetsOfBytes_lt bytes h
  unfold base64Encode base64Decode
  rw [show (String.mk ((sextetsOfBytes bytes).map b64Char ++
      b64PadChars bytes.length)).data =
      (sextetsOfBytes bytes).map b64Char ++ b64PadChars bytes.length from rfl]
  rw [List.filter_append, filter_b64_of_lt _ hs, filter_b64PadChars,
    List.append_nil, map_b64Index_of_lt _ hs]
  exact bytesOfSextets_sextetsOfBytes bytes h

/-! ## Crypto lemmas -/

theorem zipWith_xor_byte : ∀ pt ks : List Nat, (∀ x ∈ pt, x < 256) →
    (∀ x ∈ ks, x < 256) → ∀ x ∈ List.zipWith Nat.xor pt ks, x < 256
  | [], _, _, _ => by simp
  | _ :: _, [], _, _ => by simp
  | p :: pt, k :: ks, hp, hk => by
    intro x hx
    simp only [List.zipWith_cons_cons, List.mem_cons] at hx
    rcases hx with rfl | hx
    · have h1 : p < 2 ^ 8 := by have := hp p (by simp); omega
      have h2 : k < 2 ^ 8 := by have := hk k (by simp); omega
      have h3 := Nat.xor_lt_two_pow h1 h2
      show p ^^^ k < 256
      omega
    · exact zipWith_xor_byte pt ks (fun y hy => hp y (by simp [hy]))
        (fun y hy => hk y (by simp [hy])) x hx

theorem zipWith_xor_cancel : ∀ pt ks : List Nat, ks.length = pt.length →
    List.zipWith Nat.xor (List.zipWith Nat.xor pt ks) ks = pt
  | [], _, _ => by simp
  | _ :: _, [], h => by simp at h
  | p :: pt, k :: ks, h => by
    show ((p ^^^ k) ^^^ k) ::
        List.zipWith Nat.xor (List.zipWith Nat.xor pt ks) ks = p :: pt
    rw [Nat.xor_cancel_right,
      zipWith_xor_cancel pt ks (by simpa using h)]

theorem unpack_of_packed (iv ct tg : List Nat) (hiv : iv.length = IV_LENGTH)
    (htg : tg.length = TAG_LENGTH) :
    unpackIv (iv ++ ct ++ tg) = iv ∧ unpackTag (iv ++ ct ++ tg) = tg ∧
      unpackCiphertext (iv ++ ct ++ tg) = ct := by
  have hivct : (iv ++ ct).length = 12 + ct.length := by
    simp [hiv, IV_LENGTH, Nat.add_comm]
  have hlen : (iv ++ ct ++ tg).length = 12 + ct.length + 16 := by
    simp [hiv, htg, IV_LENGTH, TAG_LENGTH]
    omega
  have hts : tagStart (iv ++ ct ++ tg).length = 12 + ct.length := by
    unfold tagStart TAG_LENGTH
    rw [hlen]
    have : ¬ 12 + ct.length + 16 < 16 := by omega
    rw [if_neg this]
    omega
  refine ⟨?_, ?_, ?_⟩
  · unfold unpackIv IV_LENGTH
    rw [List.append_assoc]
    exact List.take_left' (by simp [hiv, IV_LENGTH])
  · unfold unpackTag
    rw [hts]
    exact List.drop_left' hivct
  · unfold unpackCiphertext IV_LENGTH
    rw [hts, List.take_left' hivct]
    exact List.drop_left' (by simp [hiv, IV_LENGTH])

theorem packed_bytes_lt (P : CryptoPrim) (p s : String) (iv : List Nat)
    (hivb : ∀ b ∈ iv, b < 256) :
    ∀ x ∈ iv ++ List.zipWith Nat.xor (P.utf8Encode p)
        (P.keystream (deriveKey P s) iv (P.utf8Encode p).length) ++
        P.authTag (deriveKey P s) iv (List.zipWith Nat.xor (P.utf8Encode p)
          (P.keystream (deriveKey P s) iv (P.utf8Encode p).length)),
      x < 256 := by
  have hptb := P.utf8Encode_byte p
  have hksb := P.keystream_byte (deriveKey P s) iv (P.utf8Encode p).length
  have hctb := zipWith_xor_byte _ _ hptb hksb
  have htgb := P.authTag_byte (deriveKey P s) iv
    (List.zipWith Nat.xor (P.utf8Encode p)
      (P.keystream (deriveKey P s) iv (P.utf8Encode p).length))
  intro x hx
  simp only [List.append_assoc, List.mem_append] at hx
  rcases hx with hx | hx | hx
  · exact hivb x hx
  · exact hctb x hx
  · exact htgb x hx

theorem base64Decode_encryptMessage (P : CryptoPrim) (p s : String)
    (iv : List Nat) (hivb : ∀ b ∈ iv, b < 256) :
    base64Decode (encryptMessage P p s iv) =
      iv ++ List.zipWith Nat.xor (P.utf8Encode p)
        (P.keystream (deriveKey P s) iv (P.utf8Encode p).length) ++
        P.authTag (deriveKey P s) iv (List.zipWith Nat.xor (P.utf8Encode p)
          (P.keystream (deriveKey P s) iv (P.utf8Encode p).length)) := by
  unfold encryptMessage
  exact base64_roundtrip _ (packed_bytes_lt P p s iv hivb)

/-- C1: for every secret `s` and plaintext `p` (and every fresh 12-byte
nonce the encryptor draws), `decryptMessage (encryptMessage p s) s`
returns exactly `p`: `encryptMessage` packs the nonce, the GCM
ciphertext and the 16-byte tag, base64-encoded, and `decryptMessage`
inverts the packing, passes the tag check, and decrypts back to `p`. -/
theorem decryptMessage_encryptMessage_roundtrip (P : CryptoPrim)
    (p s : String) (iv : List Nat) (hiv : iv.length = IV_LENGTH)
    (hivb : ∀ b ∈ iv, b < 256) :
    decryptMessage P (encryptMessage P p s iv) s = some p := by
  unfold decryptMessage
  rw [base64Decode_encryptMessage P p s iv hivb]
  set key := deriveKey P s with hkey
  set pt := P.utf8Encode p with hpt
  set ks := P.keystream key iv pt.length with hks
  set ct := List.zipWith Nat.xor pt ks with hct
  set tg := P.authTag key iv ct with htg
  have hksl : ks.length = pt.length := by
    rw [hks]; exact P.keystream_length key iv pt.length
  have htgl : tg.length = TAG_LENGTH := by
    rw [htg]; exact P.authTag_length key iv ct
  obtain ⟨h1, h2, h3⟩ := unpack_of_packed iv ct tg hiv htgl
  rw [h1, h2, h3, if_pos rfl]
  have hctl : ct.length = pt.length := by
    rw [hct, List.length_zipWith _ _ _, hksl, Nat.min_self]
  rw [hctl, ← hks, hct, zipWith_xor_cancel pt ks hksl, hpt, P.utf8_round]

/-- C1 witness: the round trip evaluated on a concrete primitive
instance, plaintext, secret and nonce. -/
theorem decryptMessage_encryptMessage_roundtrip_witness :
    decryptMessage toyPrim
      (encryptMessage toyPrim "hi" "key" (List.replicate 12 0)) "key" =
      some "hi" :=
  decryptMessage_encryptMessage_roundtrip toyPrim "hi" "key"
    (List.replicate 12 0) (by decide) (by decide)

/-- C2: `decryptMessage` is a total function into `Option` — every
failure of the original `try/catch` (tag mismatch, malformed input,
wrong key) is the explicit value `none`, never an exception.  Whenever
the stored tag does not match the tag recomputed from the presented
secret, the result is `none`; the empty/malformed blob decrypts to
`none` under every secret; and for distinct secrets `s1 ≠ s2` whose
derived tags disagree on the received ciphertext (the guarantee GCM
authentication provides), `decryptMessage (encryptMessage p s1) s2`
is `none`. -/
theorem decryptMessage_failure_signal (P : CryptoPrim) :
    (∀ blob token,
      P.authTag (deriveKey P token) (unpackIv (base64Decode blob))
          (unpackCiphertext (base64Decode blob)) ≠
        unpackTag (base64Decode blob) →
      decryptMessage P blob token = none) ∧
    (∀ token, decryptMessage P "" token = none) ∧
    (∀ p s1 s2 iv, iv.length = IV_LENGTH → (∀ b ∈ iv, b < 256) →
      s1 ≠ s2 →
      P.authTag (deriveKey P s2) iv
          (unpackCiphertext (base64Decode (encryptMessage P p s1 iv))) ≠
        unpackTag (base64Decode (encryptMessage P p s1 iv)) →
      decryptMessage P (encryptMessage P p s1 iv) s2 = none) := by
  have hfail : ∀ blob token,
      P.authTag (deriveKey P token) (unpackIv (base64Decode blob))
          (unpackCiphertext (base64Decode blob)) ≠
        unpackTag (base64Decode blob) →
      decryptMessage P blob token = none := by
    intro blob token hmis
    unfold decryptMessage
    rw [if_neg hmis]
  refine ⟨hfail, ?_, ?_⟩
  · intro token
    apply hfail
    have hempty : base64Decode "" = [] := rfl
    rw [hempty]
    intro h
    have := P.authTag_length (deriveKey P token) (unpackIv [])
      (unpackCiphertext [])
    rw [h] at this
    simp [unpackTag, TAG_LENGTH] at this
  · intro p s1 s2 iv hiv hivb _ hmis
    apply hfail
    intro h
    apply hmis
    have htgl := P.authTag_length (deriveKey P s1) iv
      (List.zipWith Nat.xor (P.utf8Encode p)
        (P.keystream (deriveKey P s1) iv (P.utf8Encode p).length))
    have hiveq : unpackIv (base64Decode (encryptMessage P p s1 iv)) = iv := by
      rw [base64Decode_encryptMessage P p s1 iv hivb]
      exact (unpack_of_packed iv _ _ hiv htgl).1
    rw [hiveq] at h
    exact h

/-- C2 witness: the failure value observed on a concrete malformed blob
and on a concrete wrong-key decryption. -/
theorem decryptMessage_failure_signal_witness :
    decryptMessage toyPrim "" "k" = none ∧
    decryptMessage toyPrim
      (encryptMessage toyPrim "hi" "a" (List.replicate 12 0)) "bb" = none :=
  ⟨(decryptMessage_failure_signal toyPrim).2.1 "k",
   (decryptMessage_failure_signal toyPrim).2.2 "hi" "a" "bb"
     (List.replicate 12 0) (by decide) (by decide) (by decide) (by decide)⟩

/-! ## Store lemmas -/

theorem lookupStore_upsertStore {α : Type} (m : List (String × α))
    (k : String) (v : α) : lookupStore (upsertStore m k v) k = some v := by
  simp [lookupStore, upsertStore, List.find?]

theorem lookupStore_eraseStore {α : Type} (m : List (String × α))
    (k : String) : lookupStore (eraseStore m k) k = none := by
  unfold lookupStore eraseStore
  induction m with
  | nil => rfl
  | cons kv rest ih =>
    set_option linter.unnecessarySimpa false in
    by_cases h : kv.1 = k
    · simpa [List.filter_cons, h] using ih
    · simpa [List.filter_cons, h, List.find?] using ih

/-! ## Bearer token lemmas -/

theorem splitCharsAux_of_not_mem (sep : Char) :
    ∀ (cs acc : List Char), sep ∉ cs →
      splitCharsAux sep acc cs = [acc.reverse ++ cs]
  | [], acc, _ => by simp [splitCharsAux]
  | c :: rest, acc, h => by
    have hc : ¬ c = sep := fun e => h (by simp [e])
    rw [splitCharsAux, if_neg hc,
      splitCharsAux_of_not_mem sep rest (c :: acc)
        (fun e => h (by simp [e]))]
    simp

theorem splitCharsAux_prefix_sep (sep : Char) :
    ∀ (pre acc cs : List Char), sep ∉ pre →
      splitCharsAux sep acc (pre ++ sep :: cs) =
        (acc.reverse ++ pre) :: splitCharsAux sep [] cs
  | [], acc, cs, _ => by simp [splitCharsAux]
  | c :: pre, acc, cs, h => by
    have hc : ¬ c = sep := fun e => h (by simp [e])
    rw [List.cons_append, splitCharsAux, if_neg hc,
      splitCharsAux_prefix_sep sep pre (c :: acc) cs
        (fun e => h (by simp [e]))]
    simp

theorem jsSplit_bearer (t : String) (hsp : ' ' ∉ t.data) :
    jsSplit ' ' ("Bearer " ++ t) = ["Bearer", t] := by
  unfold jsSplit
  have hdata : ("Bearer " ++ t).data = "Bearer".data ++ ' ' :: t.data := by
    rw [String.data_append]
    rfl
  rw [hdata, splitCharsAux_prefix_sep ' ' "Bearer".data [] t.data (by decide),
    splitCharsAux_of_not_mem ' ' t.data [] hsp]
  show [String.mk "Bearer".data, String.mk t.data] = ["Bearer", t]
  rfl

theorem bearer_ne_empty (t : String) : "Bearer " ++ t ≠ "" := by
  intro h
  have hd := congrArg String.data h
  rw [String.data_append] at hd
  simp at hd

theorem verifyBearerToken_self (t : String) (hlen : 20 ≤ t.length)
    (hsp : ' ' ∉ t.data) :
    verifyBearerToken (some ("Bearer " ++ t)) t = { valid := true } := by
  have hne := bearer_ne_empty t
  have hne2 : ¬ (t = "") := by
    intro h
    rw [h] at hlen
    simp [String.length] at hlen
  have hnl : ¬ (t.length < 20) := by omega
  simp only [verifyBearerToken, jsSplit_bearer t hsp]
  simp [hne, hne2, hnl]

/-! ## Authentication lemmas -/

theorem authenticateFriend_none_failed (body : MsgBody) (store : Store) :
    ∃ e, authenticateFriend none body store = .failed e := by
  by_cases hf : optFalsy body.fromName
  · exact ⟨"Missing \"from\" field", by simp [authenticateFriend, hf]⟩
  · cases hload : loadFriend store (body.fromName.getD "") with
    | none =>
      exact ⟨"Unknown agent: " ++ body.fromName.getD "",
        by simp [authenticateFriend, hf, hload]⟩
    | some friend =>
      by_cases hst : friend.status ≠ "paired" ∧ friend.status ≠ "pending"
      · exact ⟨"Not paired with: " ++ body.fromName.getD "",
          by simp only [authenticateFriend, hf, hload, Bool.false_eq_true,
            if_false, if_pos hst]⟩
      · refine ⟨"Missing Authorization header", ?_⟩
        have hv : verifyBearerToken none friend.token =
            { valid := false, error := some "Missing Authorization header" } :=
          rfl
        simp only [authenticateFriend, hf, hload, Bool.false_eq_true,
          if_false, if_neg hst, hv]
        simp

/-- C3: a POST to `/message` carrying no `Authorization` header is
answered with HTTP 401 and a body holding an `error` field, and the
friend store is left exactly as it was: no peer record is created,
modified or deleted.  This holds for every body, store, rate-limit
state and clock value. -/
theorem handleMessage_no_auth_header (P : CryptoPrim)
    (fileRender : String → Option String) (body : MsgBody) (store : Store)
    (rateLimits : RateState) (now : Int) :
    (handleMessage P fileRender none body store rateLimits now).1.status =
        401 ∧
    ((handleMessage P fileRender none body store rateLimits
        now).1.error).isSome = true ∧
    (handleMessage P fileRender none body store rateLimits now).2.1 =
        store := by
  obtain ⟨e, he⟩ := authenticateFriend_none_failed body store
  unfold handleMessage
  rw [he]
  exact ⟨rfl, rfl, rfl⟩

/-- C4 counterexample: `remove-friend.js` performs no status check — on
a store holding the friend `bob` whose status is `pending`, the remove
operation succeeds and deletes the record, where the claim says it must
fail and leave the record in place. -/
theorem removeFriend_pending_succeeds :
    pendingW.status = "pending" ∧
    loadFriend storeP "bob" = some pendingW ∧
    removeFriend storeP "bob" = .ok [] ∧
    loadFriend ((removeFriend storeP "bob").toOption.getD storeP) "bob" =
      none := by
  refine ⟨rfl, rfl, rfl, rfl⟩

/-- C4 amended: `remove(name)` succeeds whenever a record with that name
exists — regardless of its status, Pending included — and deletes the
record; it fails only when the name is empty or when no record exists
(and then the store is untouched). -/
theorem removeFriend_deletes_any_existing :
    (∀ (store : Store) (name : String) (friend : Friend), name ≠ "" →
      loadFriend store name = some friend →
      removeFriend store name = .ok (deleteFriend store name) ∧
        loadFriend (deleteFriend store name) name = none) ∧
    (∀ (store : Store) (name : String), name ≠ "" →
      loadFriend store name = none →
      removeFriend store name = .error ("No friend found: " ++ name)) := by
  constructor
  · intro store name friend hn hf
    refine ⟨?_, lookupStore_eraseStore store name⟩
    unfold removeFriend
    rw [if_neg hn, hf]
  · intro store name hn hf
    unfold removeFriend
    rw [if_neg hn, hf]

/-- C4 witness: the amended behaviour evaluated on a concrete pending
record and on a concrete missing record. -/
theorem removeFriend_deletes_any_existing_witness :
    (removeFriend storeP "bob" = .ok (deleteFriend storeP "bob") ∧
      loadFriend (deleteFriend storeP "bob") "bob" = none) ∧
    removeFriend [] "zoe" = .error ("No friend found: " ++ "zoe") :=
  ⟨removeFriend_deletes_any_existing.1 storeP "bob" pendingW (by decide)
      (by decide),
   removeFriend_deletes_any_existing.2 [] "zoe" (by decide) (by decide)⟩

/-- C5: the fixed-window rate limiter with cap 10 and a 60-second
window.  First use creates the counter at 1 (reported remaining 9); a
call inside the active window with the counter at the cap is rejected
and leaves the store unchanged; an accepted call inside the window
increments the counter and reports `10 - newCount` remaining (so each
accepted call decrements the reported quota); a call after the window
has elapsed is accepted and restarts the counter at 1 anchored at the
new arrival time (reset, not sliding).  Concretely, of 11 same-instant
calls the first 10 are accepted and the 11th rejected, and a 12th call
61 seconds later is accepted with the counter restarted at 1. -/
theorem checkRateLimit_fixed_window :
    (∀ (rs : RateState) (name : String) (now : Int),
      lookupStore rs name = none →
      checkRateLimit rs name now =
        ({ allowed := true, remaining := 9 },
          upsertStore rs name { count := 1, windowStart := now })) ∧
    (∀ (rs : RateState) (name : String) (now : Int) (e : RateEntry),
      lookupStore rs name = some e →
      now - e.windowStart ≤ RATE_LIMIT_WINDOW_MS →
      RATE_LIMIT_MAX ≤ e.count →
      checkRateLimit rs name now = ({ allowed := false, remaining := 0 }, rs)) ∧
    (∀ (rs : RateState) (name : String) (now : Int) (e : RateEntry),
      lookupStore rs name = some e →
      now - e.windowStart ≤ RATE_LIMIT_WINDOW_MS →
      e.count < RATE_LIMIT_MAX →
      checkRateLimit rs name now =
        ({ allowed := true, remaining := RATE_LIMIT_MAX - (e.count + 1) },
          upsertStore rs name
            { count := e.count + 1, windowStart := e.windowStart })) ∧
    (∀ (rs : RateState) (name : String) (now : Int) (e : RateEntry),
      lookupStore rs name = some e →
      now - e.windowStart > RATE_LIMIT_WINDOW_MS →
      checkRateLimit rs name now =
        ({ allowed := true, remaining := 9 },
          upsertStore rs name { count := 1, windowStart := now })) ∧
    (rateCalls "a" (List.replicate 11 0) []).1 =
      List.replicate 10 true ++ [false] ∧
    (rateCalls "a" (List.replicate 11 0 ++ [60001]) []).1 =
      List.replicate 10 true ++ [false, true] ∧
    lookupStore (rateCalls "a" (List.replicate 11 0 ++ [60001]) []).2 "a" =
      some { count := 1, windowStart := 60001 } := by
  refine ⟨?_, ?_, ?_, ?_, by decide, by decide, by decide⟩
  · intro rs name now h
    simp [checkRateLimit, h, RATE_LIMIT_MAX]
  · intro rs name now e h hwin hcap
    have hw : ¬ (now - e.windowStart > RATE_LIMIT_WINDOW_MS) := by omega
    simp [checkRateLimit, h, hw, hcap]
  · intro rs name now e h hwin hcap
    have hw : ¬ (now - e.windowStart > RATE_LIMIT_WINDOW_MS) := by omega
    have hc : ¬ (RATE_LIMIT_MAX ≤ e.count) := by omega
    simp [checkRateLimit, h, hw, hc]
  · intro rs name now e h hwin
    simp [checkRateLimit, h, hwin, RATE_LIMIT_MAX]

/-- C5 witness: each conditional branch of the rate limiter evaluated on
concrete stores, counters and times. -/
theorem checkRateLimit_fixed_window_witness :
    checkRateLimit [] "a" 0 =
      ({ allowed := true, remaining := 9 },
        upsertStore [] "a" { count := 1, windowStart := 0 }) ∧
    checkRateLimit [("a", { count := 10, windowStart := 0 })] "a" 5 =
      ({ allowed := false, remaining := 0 },
        [("a", { count := 10, windowStart := 0 })]) ∧
    checkRateLimit [("a", { count := 3, windowStart := 0 })] "a" 5 =
      ({ allowed := true, remaining := 6 },
        upsertStore [("a", { count := 3, windowStart := 0 })] "a"
          { count := 4, windowStart := 0 }) ∧
    checkRateLimit [("a", { count := 10, windowStart := 0 })] "a" 60001 =
      ({ allowed := true, remaining := 9 },
        upsertStore [("a", { count := 10, windowStart := 0 })] "a"
          { count := 1, windowStart := 60001 }) :=
  ⟨checkRateLimit_fixed_window.1 [] "a" 0 (by decide),
   checkRateLimit_fixed_window.2.1 _ "a" 5 { count := 10, windowStart := 0 }
     (by decide) (by decide) (by decide),
   checkRateLimit_fixed_window.2.2.1 _ "a" 5 { count := 3, windowStart := 0 }
     (by decide) (by decide) (by decide),
   checkRateLimit_fixed_window.2.2.2.1 _ "a" 60001
     { count := 10, windowStart := 0 } (by decide) (by decide)⟩

/-- C6 counterexample: a POST `/message` whose body is missing the
`from` field is answered with HTTP 401 (the missing field is folded
into the authentication failure), not with the 400 the claim reserves
for validation failures. -/
theorem handleMessage_missing_from_is_401 :
    (handleMessage toyPrim (fun _ => none) (some ("Bearer " ++ tokenW))
        bodyNoFrom storeW [] 0).1.status = 401 ∧
    (handleMessage toyPrim (fun _ => none) (some ("Bearer " ++ tokenW))
        bodyNoFrom storeW [] 0).1.status ≠ 400 := by
  refine ⟨by decide, by decide⟩

/-- C6 amended: for a body missing (or with an empty) `message` field on
a request that passes authentication, the handler answers 400 with a
`Missing "message" field` error; a body missing (or with an empty)
`from` field is instead treated as an authentication failure and
answered 401 with a `Missing "from" field` error, not 400. -/
theorem handleMessage_validation_codes (P : CryptoPrim)
    (fileRender : String → Option String) (authHeader : Option String)
    (body : MsgBody) (store : Store) (rateLimits : RateState) (now : Int) :
    (∀ friend, authenticateFriend authHeader body store = .ok friend →
      optFalsy body.message = true →
      (handleMessage P fileRender authHeader body store rateLimits
          now).1.status = 400 ∧
      (handleMessage P fileRender authHeader body store rateLimits
          now).1.error = some "Missing \"message\" field") ∧
    (optFalsy body.fromName = true →
      (handleMessage P fileRender authHeader body store rateLimits
          now).1.status = 401 ∧
      (handleMessage P fileRender authHeader body store rateLimits
          now).1.error = some "Missing \"from\" field") := by
  constructor
  · intro friend hauth hmsg
    constructor <;> simp [handleMessage, hauth, hmsg]
  · intro hfrom
    have hauth : authenticateFriend authHeader body store =
        .failed "Missing \"from\" field" := by
      simp [authenticateFriend, hfrom]
    constructor <;> simp [handleMessage, hauth]

/-- C6 amended witness: the two response codes observed on concrete
requests (authenticated but message missing; `from` missing). -/
theorem handleMessage_validation_codes_witness :
    ((handleMessage toyPrim (fun _ => none) (some ("Bearer " ++ tokenW))
        { fromName := some "amy", message := none } storeW [] 0).1.status =
        400 ∧
      (handleMessage toyPrim (fun _ => none) (some ("Bearer " ++ tokenW))
        { fromName := some "amy", message := none } storeW [] 0).1.error =
        some "Missing \"message\" field") ∧
    ((handleMessage toyPrim (fun _ => none) (some ("Bearer " ++ tokenW))
        bodyNoFrom storeW [] 0).1.status = 401 ∧
      (handleMessage toyPrim (fun _ => none) (some ("Bearer " ++ tokenW))
        bodyNoFrom storeW [] 0).1.error = some "Missing \"from\" field") :=
  ⟨(handleMessage_validation_codes toyPrim (fun _ => none)
      (some ("Bearer " ++ tokenW)) { fromName := some "amy", message := none }
      storeW [] 0).1 friendW (by decide) (by decide),
   (handleMessage_validation_codes toyPrim (fun _ => none)
      (some ("Bearer " ++ tokenW)) bodyNoFrom storeW [] 0).2 (by decide)⟩

/-- C7: the cooldown evaluation.  For every friend record, configured
window and threshold and every clock value, `overCooldown` is true
exactly when the number of history entries — of either direction —
whose timestamp falls within the trailing `cooldownMinutes` window
(`now - timestamp < cooldownMinutes` minutes) reaches
`maxExchangesPerConvo`.  With `maxExchanges = 3` and exactly 3
in-window entries it evaluates true; at a later instant when only 2 of
those entries remain inside the window it evaluates false. -/
theorem overCooldown_counts_window :
    (∀ (friend : Friend) (cooldownMinutes : Int)
        (maxExchangesPerConvo : Nat) (now : Int),
      overCooldown (some friend) cooldownMinutes maxExchangesPerConvo now =
        decide (maxExchangesPerConvo ≤
          (friend.conversation_history.filter
            (fun m => now - m.timestamp < cooldownMinutes * 60 * 1000)).length)) ∧
    overCooldown (some coolFriendW) 30 3 1300000 = true ∧
    overCooldown (some coolFriendW) 30 3 2850000 = false := by
  refine ⟨?_, by decide, by decide⟩
  intro friend cm me now
  have hfilter : friend.conversation_history.filter
      (fun m => decide (m.timestamp > now - cm * 60 * 1000)) =
      friend.conversation_history.filter
        (fun m => decide (now - m.timestamp < cm * 60 * 1000)) := by
    apply List.filter_congr
    intro m _
    simp only [decide_eq_decide]
    omega
  simp only [overCooldown, getRecentExchangeCount, hfilter, ge_iff_le]

/-! ## Success-path lemma for the `/message` handler -/

theorem handleMessage_success_path (P : CryptoPrim)
    (fileRender : String → Option String) (authHeader : Option String)
    (body : MsgBody) (store : Store) (rateLimits : RateState) (now : Int)
    (friend : Friend) (plaintext0 : String)
    (hauth : authenticateFriend authHeader body store = .ok friend)
    (hmsg : optFalsy body.message = false)
    (hrate : (checkRateLimit rateLimits (body.fromName.getD "")
        now).1.allowed = true)
    (hdec : (if body.encrypted then
        decryptMessage P (body.message.getD "") friend.token
      else some (body.message.getD "")) = some plaintext0) :
    handleMessage P fileRender authHeader body store rateLimits now =
      ({ status := 200, statusField := some "delivered",
         messageField := some "Message received",
         remaining := some (checkRateLimit rateLimits (body.fromName.getD "")
           now).1.remaining },
       saveFriend store (body.fromName.getD "")
         { friend with
           conversation_history := pushHistory friend.conversation_history
             { fromName := body.fromName.getD "",
               message := if body.message_type = some "file" then
                   (fileRender plaintext0).getD plaintext0
                 else plaintext0,
               timestamp := body.timestamp.getD now,
               direction := "incoming" },
           last_message_at := some now },
       (checkRateLimit rateLimits (body.fromName.getD "") now).2) := by
  simp only [handleMessage, hauth, hmsg, hrate, hdec, Bool.false_eq_true,
    Bool.true_eq_false, if_false]

/-- C8: the stored conversation history is bounded by 100 entries with
oldest-first eviction.  The push-and-trim step shared by the `/message`
handler and the outbound send never yields more than 100 entries, always
yields a suffix of the old history with the new entry appended (so
exactly the most recent entries in insertion order are kept, the oldest
evicted), with length `min (old + 1) 100`; the outbound send stores
exactly this push-and-trim result, and so does the `/message` handler on
its success path. -/
theorem conversation_history_bounded :
    (∀ (h : List HistEntry) (e : HistEntry),
      (pushHistory h e).length ≤ 100) ∧
    (∀ (h : List HistEntry) (e : HistEntry),
      (pushHistory h e).IsSuffix (h ++ [e])) ∧
    (∀ (h : List HistEntry) (e : HistEntry),
      (pushHistory h e).length = min (h.length + 1) 100) ∧
    (∀ (friend : Friend) (agentName message : String) (ts : Int),
      (recordDelivered friend agentName message ts).conversation_history =
        pushHistory friend.conversation_history
          { fromName := agentName, message := message, timestamp := ts,
            direction := "outgoing" }) ∧
    (∀ (P : CryptoPrim) (fileRender : String → Option String)
        (authHeader : Option String) (body : MsgBody) (store : Store)
        (rateLimits : RateState) (now : Int) (friend : Friend)
        (plaintext0 : String),
      authenticateFriend authHeader body store = .ok friend →
      optFalsy body.message = false →
      (checkRateLimit rateLimits (body.fromName.getD "")
          now).1.allowed = true →
      (if body.encrypted then
          decryptMessage P (body.message.getD "") friend.token
        else some (body.message.getD "")) = some plaintext0 →
      loadFriend (handleMessage P fileRender authHeader body store rateLimits
          now).2.1 (body.fromName.getD "") =
        some { friend with
          conversation_history := pushHistory friend.conversation_history
            { fromName := body.fromName.getD "",
              message := if body.message_type = some "file" then
                  (fileRender plaintext0).getD plaintext0
                else plaintext0,
              timestamp := body.timestamp.getD now,
              direction := "incoming" },
          last_message_at := some now }) := by
  refine ⟨?_, ?_, ?_, ?_, ?_⟩
  · intro h e
    simp only [pushHistory]
    split
    next hgt =>
      rw [List.length_drop]
      omega
    next hle => omega
  · intro h e
    simp only [pushHistory]
    split
    · exact List.drop_suffix _ _
    · exact List.suffix_refl _
  · intro h e
    simp only [pushHistory]
    split
    next hgt =>
      rw [List.length_drop]
      simp only [List.length_append, List.length_cons,
        List.length_nil] at hgt ⊢
      omega
    next hle =>
      simp only [List.length_append, List.length_cons,
        List.length_nil] at hle ⊢
      omega
  · intro friend agentName message ts
    rfl
  · intro P fileRender authHeader body store rateLimits now friend plaintext0
      hauth hmsg hrate hdec
    rw [handleMessage_success_path P fileRender authHeader body store
      rateLimits now friend plaintext0 hauth hmsg hrate hdec]
    exact lookupStore_upsertStore store (body.fromName.getD "") _

/-- C8 witness: the handler's stored record evaluated on a concrete
accepted message against a 0-entry history. -/
theorem conversation_history_bounded_witness :
    loadFriend (handleMessage toyPrim (fun _ => none)
        (some ("Bearer " ++ tokenW))
        { fromName := some "amy", message := some "hello",
          encrypted := false, message_type := none, timestamp := some 3 }
        storeW [] 5).2.1 "amy" =
      some { friendW with
        conversation_history := pushHistory friendW.conversation_history
          { fromName := "amy", message := "hello", timestamp := 3,
            direction := "incoming" },
        last_message_at := some 5 } := by
  have h := conversation_history_bounded.2.2.2.2 toyPrim (fun _ => none)
    (some ("Bearer " ++ tokenW))
    { fromName := some "amy", message := some "hello", encrypted := false,
      message_type := none, timestamp := some 3 }
    storeW [] 5 friendW "hello" (by decide) (by decide) (by decide)
    (by decide)
  simpa using h

/-- C9: the supervisor's restart schedule.  A child that exits
immediately after each restart produces the scheduled delay sequence
1s, 2s, 4s, 8s, 16s, 32s, then the 60s cap repeated; and whenever the
child ran longer than `RESET_AFTER_MS` (5 minutes), the delay used for
the next scheduled restart is the 1-second floor, whatever backoff had
accumulated. -/
theorem watchdog_backoff :
    restartDelays watchdogInit (List.replicate 8 0) =
      [1000, 2000, 4000, 8000, 16000, 32000, 60000, 60000] ∧
    (∀ (s : WatchdogState) (runtimeMs : Int), runtimeMs > RESET_AFTER_MS →
      (onServerExit s runtimeMs).1 = MIN_RESTART_DELAY) := by
  refine ⟨by decide, ?_⟩
  intro s rt h
  simp [onServerExit, h, watchdogInit]

/-- C9 witness: the backoff reset evaluated at an accumulated 60s delay
and a 6-minute runtime. -/
theorem watchdog_backoff_witness :
    (onServerExit { restartDelay := 60000, restartCount := 5 }
        360000).1 = MIN_RESTART_DELAY :=
  watchdog_backoff.2 { restartDelay := 60000, restartCount := 5 } 360000
    (by decide)

/-- C10: the `/message` endpoint does not require the Paired state.  For
every stored friend record whose status is `pending`, a POST `/message`
presenting the correct bearer token for that record passes
authentication and is processed as a delivered message: HTTP 200 with
`status: "delivered"`, and the incoming history entry appended to the
stored record. -/
theorem handleMessage_pending_accepted (P : CryptoPrim)
    (fileRender : String → Option String) (store : Store)
    (rateLimits : RateState) (now : Int) (name msg : String) (ts : Int)
    (friend : Friend)
    (hload : loadFriend store name = some friend)
    (hstatus : friend.status = "pending")
    (hname : name ≠ "") (hmsg : msg ≠ "")
    (htok : 20 ≤ friend.token.length) (hsp : ' ' ∉ friend.token.data)
    (hrate : (checkRateLimit rateLimits name now).1.allowed = true) :
    (handleMessage P fileRender (some ("Bearer " ++ friend.token))
        { fromName := some name, message := some msg, encrypted := false,
          message_type := none, timestamp := some ts }
        store rateLimits now).1.status = 200 ∧
    (handleMessage P fileRender (some ("Bearer " ++ friend.token))
        { fromName := some name, message := some msg, encrypted := false,
          message_type := none, timestamp := some ts }
        store rateLimits now).1.statusField = some "delivered" ∧
    loadFriend (handleMessage P fileRender (some ("Bearer " ++ friend.token))
        { fromName := some name, message := some msg, encrypted := false,
          message_type := none, timestamp := some ts }
        store rateLimits now).2.1 name =
      some { friend with
        conversation_history := pushHistory friend.conversation_history
          { fromName := name, message := msg, timestamp := ts,
            direction := "incoming" },
        last_message_at := some now } := by
  have hauth : authenticateFriend (some ("Bearer " ++ friend.token))
      { fromName := some name, message := some msg, encrypted := false,
        message_type := none, timestamp := some ts } store = .ok friend := by
    simp [authenticateFriend, optFalsy, hname, hload, hstatus,
      verifyBearerToken_self friend.token htok hsp]
  have hrw := handleMessage_success_path P fileRender
    (some ("Bearer " ++ friend.token))
    { fromName := some name, message := some msg, encrypted := false,
      message_type := none, timestamp := some ts }
    store rateLimits now friend msg hauth (by simp [optFalsy, hmsg])
    (by simpa using hrate) (by simp)
  rw [hrw]
  refine ⟨rfl, rfl, ?_⟩
  have hlk := lookupStore_upsertStore store name
    { friend with
      conversation_history := pushHistory friend.conversation_history
        { fromName := name, message := msg, timestamp := ts,
          direction := "incoming" },
      last_message_at := some now }
  simpa using hlk

/-- C10 witness: a pending friend with the correct bearer token gets a
200 `delivered` response and the appended history entry, on concrete
data. -/
theorem handleMessage_pending_accepted_witness :
    (handleMessage toyPrim (fun _ => none) (some ("Bearer " ++ tokenW))
        { fromName := some "amy", message := some "hello",
          encrypted := false, message_type := none, timestamp := some 3 }
        storeW [] 5).1.status = 200 ∧
    (handleMessage toyPrim (fun _ => none) (some ("Bearer " ++ tokenW))
        { fromName := some "amy", message := some "hello",
          encrypted := false, message_type := none, timestamp := some 3 }
        storeW [] 5).1.statusField = some "delivered" ∧
    loadFriend (handleMessage toyPrim (fun _ => none)
        (some ("Bearer " ++ tokenW))
        { fromName := some "amy", message := some "hello",
          encrypted := false, message_type := none, timestamp := some 3 }
        storeW [] 5).2.1 "amy" =
      some { friendW with
        conversation_history := pushHistory friendW.conversation_history
          { fromName := "amy", message := "hello", timestamp := 3,
            direction := "incoming" },
        last_message_at := some 5 } := by
  have h := handleMessage_pending_accepted toyPrim (fun _ => none) storeW []
    5 "amy" "hello" 3 friendW (by decide) (by decide) (by decide) (by decide)
    (by decide) (by decide) (by decide)
  simpa [tokenW, friendW] using h
